import Mathlib

set_option maxRecDepth 4000

/-!
Verification of the symbol-allocation and parameter-encoding core of the
trident quantum-circuit library (src/circuit/symbol.rs and
src/circuit/parameter.rs), as a shallow embedding.

Embedding conventions:
* Rust u32 values (symbol indices, counters, float bit patterns) become
  Nat.  Every in-contract arithmetic step in the source stays strictly
  below 2^32 and never under- or overflows, so the Nat embedding is exact
  on that domain; the Nat-truncated subtraction MAX - a used in the
  checked_incr guard coincides with u32 subtraction whenever a <= MAX.
* The zero-size instance token Id<'id> has no runtime content and is
  dropped; a symbol is represented by its u32 index.
* Each symbol kind (Qubit, FormalParameter, Bit) differs only in its MAX
  bound and in which CircuitBuilder counter it uses, so the allocator
  operations are parameterized by MAX and take the counter value
  explicitly, returning the result together with the possibly-updated
  counter (mutation of `&mut u32` becomes explicit state passing).
* f32 values are represented by their 32-bit patterns.  Every finite f32
  is an integer multiple of 2^-149, so exact f32 values are modeled as
  integers at scale 2^149 (f32.val149) and f32 subtraction is exact
  integer subtraction followed by IEEE-754 round-to-nearest-even
  re-encoding (f32.ofScaled).
-/

/-- The single error kind of the core, QuantumCircuitError::AllocOverflow. -/
inductive QuantumCircuitError where
  | AllocOverflow
  deriving DecidableEq, Repr

/-- Default of the Symbol trait: `const MAX: u32 = u32::MAX - 1`. -/
def Symbol.MAX_DEFAULT : Nat := 2 ^ 32 - 2

/-- Qubit inherits the trait default MAX (the symbols! macro gives Qubit no max override). -/
def Qubit.MAX : Nat := Symbol.MAX_DEFAULT

/-- FormalParameter inherits the trait default MAX (no max override in the symbols! macro). -/
def FormalParameter.MAX : Nat := Symbol.MAX_DEFAULT

/-- Bit overrides MAX with `max: 1 << f32::MANTISSA_DIGITS` = 2^24. -/
def Bit.MAX : Nat := 2 ^ 24

/-- Symbol::checked_incr: increases counter `a` by `n` if `n < (MAX - *a)`,
else fails with AllocOverflow.  Returns the new counter value on success. -/
def checked_incr (MAX a n : Nat) : Except QuantumCircuitError Nat :=
  if n < MAX - a then Except.ok (a + n) else Except.error QuantumCircuitError.AllocOverflow

/-- Symbol::alloc: reads the counter `c`, builds the result symbol
`Self::new(*count)` (index c), then runs checked_incr with n = 1.
Returned pair: (allocation result, counter after the call). -/
def alloc (MAX c : Nat) : Except QuantumCircuitError Nat × Nat :=
  match checked_incr MAX c 1 with
  | Except.ok c2 => (Except.ok c, c2)
  | Except.error e => (Except.error e, c)

/-- Symbol::alloc_n::<N>: reserves N consecutive indices via checked_incr
with n = N; on success the array `[0; N].map(...)` holds the indices
start, start+1, ..., start+N-1, i.e. (List.range n).map (c + .). -/
def alloc_n (MAX c n : Nat) : Except QuantumCircuitError (List Nat) × Nat :=
  match checked_incr MAX c n with
  | Except.ok c2 => (Except.ok ((List.range n).map (c + ·)), c2)
  | Except.error e => (Except.error e, c)

/-- List<T> from symbol.rs: a view over the half-open index range
`range: Range<u32>`; field stop is the range's `end`. -/
structure SymList where
  start : Nat
  stop : Nat
  deriving DecidableEq, Repr

/-- List::from_range (also the unchecked public constructor from_range_unchecked). -/
def SymList.from_range (s e : Nat) : SymList := ⟨s, e⟩

/-- Symbol::alloc_list: same reservation as alloc_n, but returns
`List::from_range(start..*count)` over the reserved range. -/
def alloc_list (MAX c len : Nat) : Except QuantumCircuitError SymList × Nat :=
  match checked_incr MAX c len with
  | Except.ok c2 => (Except.ok (SymList.from_range c c2), c2)
  | Except.error e => (Except.error e, c)

/-- n sequential Symbol::alloc calls from counter c: returns the list of
allocated indices in call order and the final counter, or none if any call
fails.  Used to state the refinement of alloc_n by repeated alloc. -/
def allocSeq (MAX : Nat) : Nat → Nat → Option (List Nat × Nat)
  | 0, c => some ([], c)
  | n + 1, c =>
    match alloc MAX c with
    | (Except.ok s, c2) => (allocSeq MAX n c2).map (fun p => (s :: p.1, p.2))
    | (Except.error _, _) => none

/-- List::new: endpoint-inclusive construction from two Qubit endpoint
symbols (compared by index): `(start <= end).then(|| from_range(start.id()..end.id() + 1))`. -/
def SymList.new (a b : Nat) : Option SymList :=
  if a ≤ b then some (SymList.from_range a (b + 1)) else none

/-- List::len: `(end - start) as usize`. -/
def SymList.len (l : SymList) : Nat := l.stop - l.start

/-- List::get: `(n < self.len()).then(|| T::new(n as u32 + self.range.start))`. -/
def SymList.get (l : SymList) (n : Nat) : Option Nat :=
  if n < l.len then some (n + l.start) else none

/-- List::contains: `self.range.contains(&parameter.id())`, the half-open
bound check start <= id < stop. -/
def SymList.contains (l : SymList) (sym : Nat) : Bool :=
  decide (l.start ≤ sym ∧ sym < l.stop)

/-- f32::MANTISSA_DIGITS = 24 (significand width including the implicit bit). -/
def f32.MANTISSA_DIGITS : Nat := 24

/-- The 8-bit exponent field of an f32 bit pattern (bits 23..31). -/
def f32.expField (b : Nat) : Nat := b / 2 ^ 23 % 2 ^ 8

/-- The 23-bit mantissa field of an f32 bit pattern (bits 0..23). -/
def f32.mantissaField (b : Nat) : Nat := b % 2 ^ 23

/-- The sign bit of an f32 bit pattern (bit 31). -/
def f32.sign (b : Nat) : Nat := b / 2 ^ 31 % 2

/-- f32::is_finite on a bit pattern: finite iff the exponent field is not all ones. -/
def f32.isFinite (b : Nat) : Bool := decide (f32.expField b ≠ 255)

/-- NaN: exponent field all ones and nonzero mantissa. -/
def f32.isNan (b : Nat) : Bool := decide (f32.expField b = 255 ∧ f32.mantissaField b ≠ 0)

/-- Infinity of either sign: exponent field all ones and zero mantissa. -/
def f32.isInf (b : Nat) : Bool := decide (f32.expField b = 255 ∧ f32.mantissaField b = 0)

/-- f32::INFINITY.to_bits() = 0x7F800000. -/
def f32.INFINITY_BITS : Nat := 0x7F800000

/-- f32 negation on bit patterns: flip the sign bit. -/
def f32.neg (b : Nat) : Nat := if b < 2 ^ 31 then b + 2 ^ 31 else b - 2 ^ 31

/-- f32::abs on bit patterns: clear the sign bit. -/
def f32.abs (b : Nat) : Nat := b % 2 ^ 31

/-- The exact value of a finite f32 bit pattern as an integer at scale
2^149 (every finite f32 equals val149 b * 2^-149 exactly): subnormal
(expField 0) is m * 2^-149, normal is (2^23 + m) * 2^(e - 150)
= (2^23 + m) * 2^(e-1) * 2^-149. -/
def f32.val149 (b : Nat) : Int :=
  let mag : Nat :=
    if f32.expField b = 0 then f32.mantissaField b
    else (2 ^ 23 + f32.mantissaField b) * 2 ^ (f32.expField b - 1)
  if f32.sign b = 1 then -(mag : Int) else (mag : Int)

/-- Floor of log2 by fuel-bounded binary recursion (kernel-reducible;
fuel 300 covers every integer below 2^300, far above any scaled f32). -/
def f32.ilog2 : Nat → Nat → Nat
  | 0, _ => 0
  | fuel + 1, n => if n ≤ 1 then 0 else f32.ilog2 fuel (n / 2) + 1

/-- Encode (-1)^s * n * 2^-149 (n > 0, s in {0,1}) as an f32 bit pattern
with IEEE-754 round-to-nearest-even, overflowing to infinity.  Subnormal
results (n < 2^23, value below 2^-126) are exact multiples of 2^-149 and
need no rounding; normal results keep the top 24 bits of n, rounding on
the rest, with a carry possibly bumping the exponent.  Exponent position
L (2^L <= n < 2^(L+1)) maps to a biased exponent field L - 22; L > 276
means a value at or above 2^128, which overflows to infinity. -/
def f32.ofScaled (s n : Nat) : Nat :=
  if n < 2 ^ 23 then s * 2 ^ 31 + n
  else
    let L := f32.ilog2 300 n
    let shift := L - 23
    let q := n / 2 ^ shift
    let r := n % 2 ^ shift
    let q2 := if 2 ^ shift < 2 * r ∨ (2 * r = 2 ^ shift ∧ q % 2 = 1) then q + 1 else q
    let L2 := if q2 = 2 ^ 24 then L + 1 else L
    let q3 := if q2 = 2 ^ 24 then 2 ^ 23 else q2
    if 276 < L2 then s * 2 ^ 31 + f32.INFINITY_BITS
    else s * 2 ^ 31 + (L2 - 22) * 2 ^ 23 + (q3 - 2 ^ 23)

/-- IEEE-754 f32 subtraction on bit patterns (the `x - y` of
Parameter's PartialEq, where both operands are finite): exact integer
subtraction at scale 2^149 followed by round-to-nearest-even.  An exact
zero result is +0 except for (-0) - (+0) = -0; non-finite operands follow
the IEEE special cases. -/
def f32.sub (a b : Nat) : Nat :=
  if f32.isNan a || f32.isNan b then 0x7FC00000
  else if f32.isInf a && f32.isInf b then
    (if f32.sign a = f32.sign b then 0x7FC00000 else a)
  else if f32.isInf a then a
  else if f32.isInf b then f32.neg b
  else
    let d : Int := f32.val149 a - f32.val149 b
    if d = 0 then (if f32.sign a = 1 ∧ f32.sign b = 0 then 2 ^ 31 else 0)
    else if 0 < d then f32.ofScaled 0 d.toNat
    else f32.ofScaled 1 (-d).toNat

/-- IEEE-754 f32 `<` on bit patterns: false if either operand is NaN,
infinities ordered at the ends, finite values by their exact value
(so -0 and +0 compare equal). -/
def f32.lt (a b : Nat) : Bool :=
  if f32.isNan a || f32.isNan b then false
  else if f32.isInf a then
    decide (f32.sign a = 1) && ! (f32.isInf b && decide (f32.sign b = 1))
  else if f32.isInf b then decide (f32.sign b = 0)
  else decide (f32.val149 a < f32.val149 b)

/-- FormalParameter symbol: its u32 index (the zero-size token dropped). -/
structure FormalParameter where
  n : Nat
  deriving DecidableEq, Repr

/-- FormalParameter::id. -/
def FormalParameter.id (f : FormalParameter) : Nat := f.n

/-- Parameter<'id> from parameter.rs: a bare u32 bit pattern. -/
structure Parameter where
  bits : Nat
  deriving DecidableEq, Repr

/-- Parameter::PRECISION = 1e-4_f32, whose bit pattern is 0x38D1B717
(exponent field 113, mantissa 5355287; see PRECISION_is_nearest_1e4). -/
def Parameter.PRECISION : Nat := 0x38D1B717

/-- Parameter::is_value: `f32::from_bits(self.bits).is_finite()`. -/
def Parameter.is_value (p : Parameter) : Bool := f32.isFinite p.bits

/-- Parameter::is_formal: `!self.is_value()`. -/
def Parameter.is_formal (p : Parameter) : Bool := ! p.is_value

/-- Parameter::as_value: the float itself (its bit pattern here) when finite. -/
def Parameter.as_value (p : Parameter) : Option Nat :=
  if p.is_value then some p.bits else none

/-- `const MANTISSA_MASK: u32 = (1 << f32::MANTISSA_DIGITS) - 1` = 2^24 - 1. -/
def MANTISSA_MASK : Nat := 2 ^ f32.MANTISSA_DIGITS - 1

/-- Parameter::as_formal: `FormalParameter::new(self.bits & MANTISSA_MASK)`
when the parameter is formal. -/
def Parameter.as_formal (p : Parameter) : Option FormalParameter :=
  if p.is_formal then some ⟨p.bits &&& MANTISSA_MASK⟩ else none

/-- `impl From<f32> for Parameter`: non-finite input is normalized to 0.0
(bit pattern 0) before storing the bits. -/
def Parameter.ofF32 (b : Nat) : Parameter :=
  if f32.isFinite b then ⟨b⟩ else ⟨0⟩

/-- `impl From<FormalParameter> for Parameter`:
`Self::new(u32::from(formal.id()) | f32::INFINITY.to_bits())`. -/
def Parameter.ofFormal (f : FormalParameter) : Parameter :=
  ⟨f.id ||| f32.INFINITY_BITS⟩

/-- `impl PartialEq for Parameter`: match on (as_value, as_value);
two values compare by `(x - y).abs() < Self::PRECISION` in f32 arithmetic,
two non-values by raw bits, mixed kinds are unequal. -/
def Parameter.peq (p q : Parameter) : Bool :=
  match p.as_value, q.as_value with
  | some x, some y => f32.lt (f32.abs (f32.sub x y)) Parameter.PRECISION
  | none, none => decide (p.bits = q.bits)
  | _, _ => false

/-- Sanity check of the PRECISION constant: it represents
13743895 * 2^-37 exactly. -/
theorem PRECISION_val149 : f32.val149 Parameter.PRECISION = 13743895 * 2 ^ 112 := by decide

/-- Certifies that PRECISION = 13743895 * 2^-37 is the f32 nearest the
decimal literal 1e-4: the distance |13743895/2^37 - 1/10000| is below the
half-ulp 2^-38, i.e. 2 * (2^37 - 13743895 * 10000) < 10000 after clearing
denominators. -/
theorem PRECISION_is_nearest_1e4 :
    13743895 * 10000 ≤ 2 ^ 37 ∧ 2 * (2 ^ 37 - 13743895 * 10000) < 10000 := by decide

theorem checked_incr_ok (MAX a n : Nat) (h : a + n < MAX) :
    checked_incr MAX a n = Except.ok (a + n) := by
  have hg : n < MAX - a := by omega
  simp [checked_incr, hg]

theorem checked_incr_error (MAX a n : Nat) (h : MAX ≤ a + n) :
    checked_incr MAX a n = Except.error QuantumCircuitError.AllocOverflow := by
  have hg : ¬ n < MAX - a := by omega
  simp [checked_incr, hg]

theorem alloc_ok (MAX c : Nat) (h : c + 1 < MAX) : alloc MAX c = (Except.ok c, c + 1) := by
  simp [alloc, checked_incr_ok MAX c 1 h]

theorem alloc_error (MAX c : Nat) (h : MAX ≤ c + 1) :
    alloc MAX c = (Except.error QuantumCircuitError.AllocOverflow, c) := by
  simp [alloc, checked_incr_error MAX c 1 h]

theorem range_map_shift (c n : Nat) :
    (List.range (n + 1)).map (c + ·) = c :: (List.range n).map (c + 1 + ·) := by
  rw [List.range_succ_eq_map, List.map_cons, List.map_map]
  simp only [Nat.add_zero]
  congr 1
  apply List.map_congr_left
  intro i _
  simp only [Function.comp_apply]
  omega

theorem allocSeq_ok (MAX : Nat) : ∀ n c : Nat, c + n < MAX →
    allocSeq MAX n c = some ((List.range n).map (c + ·), c + n) := by
  intro n
  induction n with
  | zero => intro c _; simp [allocSeq]
  | succ n ih =>
    intro c h
    have ha := alloc_ok MAX c (by omega)
    have hs := ih (c + 1) (by omega)
    have hc : c + 1 + n = c + (n + 1) := by omega
    simp [allocSeq, ha, hs, range_map_shift, hc]

/-- C1 (code-bug evaluation): the spec's formal-parameter round trip fails.
Parameter::from(FormalParameter symbol 7) is indeed a formal-Parameter, but
as_formal() returns the symbol with index 2^23 + 7 = 8388615, not 7: the
24-bit MANTISSA_MASK = (1 << f32::MANTISSA_DIGITS) - 1 keeps bit 23, which
is an exponent bit that INFINITY's pattern 0x7F800000 sets, while the
actual mantissa field is only 23 bits wide. -/
theorem formal_roundtrip_failing_input :
    (Parameter.ofFormal ⟨7⟩).is_formal = true ∧
    (Parameter.ofFormal ⟨7⟩).as_formal = some ⟨2 ^ 23 + 7⟩ ∧
    (2 ^ 23 + 7 : Nat) ≠ 7 := by decide

/-- C2 (code-bug evaluation): FormalParameter gets no max override in the
symbols! macro, so its MAX is the trait default u32::MAX - 1 = 2^32 - 2,
far above 2^23; the mantissa-bounded max of 1 << f32::MANTISSA_DIGITS
= 2^24 is given to Bit instead, whose indices are never packed into a
Parameter. -/
theorem formal_max_not_mantissa_bounded :
    FormalParameter.MAX = 2 ^ 32 - 2 ∧ ¬ FormalParameter.MAX ≤ 2 ^ 23 ∧
    Bit.MAX = 2 ^ 24 := by decide

/-- C3: for every symbol kind (every bound MAX; the kinds differ only in
their MAX and in which builder counter they use) and every counter value c,
alloc succeeds iff c + 1 < MAX, returning the symbol with index c (the
counter's value before the call) and leaving the counter at c + 1;
otherwise it fails with AllocOverflow and the counter is unchanged. -/
theorem alloc_single_spec (MAX c : Nat) :
    (c + 1 < MAX → alloc MAX c = (Except.ok c, c + 1)) ∧
    (¬ c + 1 < MAX →
      alloc MAX c = (Except.error QuantumCircuitError.AllocOverflow, c)) :=
  ⟨fun h => alloc_ok MAX c h, fun h => alloc_error MAX c (by omega)⟩

/-- Witness for C3: a successful alloc under the Bit bound and the failing
alloc at the Qubit bound. -/
theorem alloc_single_spec_witness :
    alloc Bit.MAX 5 = (Except.ok 5, 5 + 1) ∧
    alloc Qubit.MAX (Qubit.MAX - 1)
      = (Except.error QuantumCircuitError.AllocOverflow, Qubit.MAX - 1) :=
  ⟨(alloc_single_spec Bit.MAX 5).1 (by decide),
   (alloc_single_spec Qubit.MAX (Qubit.MAX - 1)).2 (by decide)⟩

/-- C4: for every kind bound MAX, requested count n and counter c < MAX,
alloc_n and alloc_list fail with AllocOverflow leaving the counter
unchanged exactly when c + n >= MAX, and succeed exactly when c + n < MAX,
in which case the counter becomes c + n and alloc_list returns the List
over the half-open range from c to c + n. -/
theorem alloc_n_list_boundary (MAX c n : Nat) (hc : c < MAX) :
    (MAX ≤ c + n →
      alloc_n MAX c n = (Except.error QuantumCircuitError.AllocOverflow, c) ∧
      alloc_list MAX c n = (Except.error QuantumCircuitError.AllocOverflow, c)) ∧
    (c + n < MAX →
      alloc_n MAX c n = (Except.ok ((List.range n).map (c + ·)), c + n) ∧
      alloc_list MAX c n = (Except.ok (SymList.from_range c (c + n)), c + n)) := by
  constructor
  · intro h
    exact ⟨by simp [alloc_n, checked_incr_error MAX c n h],
           by simp [alloc_list, checked_incr_error MAX c n h]⟩
  · intro h
    exact ⟨by simp [alloc_n, checked_incr_ok MAX c n h],
           by simp [alloc_list, SymList.from_range, checked_incr_ok MAX c n h]⟩

/-- Witness for C4: with MAX = 10 and counter 3, requesting 7 overflows
(counter untouched) and requesting 4 succeeds, advancing the counter to 7. -/
theorem alloc_n_list_boundary_witness :
    (alloc_n 10 3 7 = (Except.error QuantumCircuitError.AllocOverflow, 3) ∧
     alloc_list 10 3 7 = (Except.error QuantumCircuitError.AllocOverflow, 3)) ∧
    (alloc_n 10 3 4 = (Except.ok ((List.range 4).map (3 + ·)), 3 + 4) ∧
     alloc_list 10 3 4 = (Except.ok (SymList.from_range 3 (3 + 4)), 3 + 4)) :=
  ⟨(alloc_n_list_boundary 10 3 7 (by decide)).1 (by decide),
   (alloc_n_list_boundary 10 3 4 (by decide)).2 (by decide)⟩

theorem allocSeq_ok_zero (MAX n : Nat) (h : n < MAX) :
    allocSeq MAX n 0 = some (List.range n, n) := by
  have h2 := allocSeq_ok MAX n 0 (by omega)
  simpa using h2

theorem allocSeq_qubit_full :
    allocSeq Qubit.MAX (Qubit.MAX - 1) 0
      = some (List.range (Qubit.MAX - 1), Qubit.MAX - 1) :=
  allocSeq_ok_zero Qubit.MAX (Qubit.MAX - 1) (by decide)

theorem range_getLast_of_pos (n : Nat) (h : 0 < n) :
    (List.range n).getLast? = some (n - 1) := by
  have h2 : n = (n - 1) + 1 := by omega
  rw [h2, List.range_succ, List.getLast?_concat]
  simp

theorem range_qubit_getLast :
    (List.range (Qubit.MAX - 1)).getLast? = some (Qubit.MAX - 2) := by
  have h := range_getLast_of_pos (Qubit.MAX - 1) (by decide)
  have h2 : Qubit.MAX - 1 - 1 = Qubit.MAX - 2 := by decide
  rw [h, h2]

/-- C5 counterexample: starting from qubit counter 0, the Qubit::MAX - 1
single alloc calls all succeed (yielding indices 0, 1, ..., Qubit::MAX - 2
and final counter Qubit::MAX - 1), so the last call returns the symbol with
index Qubit::MAX - 2, which is not Qubit::MAX - 1 as the claim states:
alloc with counter c succeeds only when c + 1 < MAX, so no index ever
reaches MAX - 1. -/
theorem qubit_exhaustion_counterexample :
    allocSeq Qubit.MAX (Qubit.MAX - 1) 0
      = some (List.range (Qubit.MAX - 1), Qubit.MAX - 1) ∧
    (List.range (Qubit.MAX - 1)).getLast? = some (Qubit.MAX - 2) ∧
    Qubit.MAX - 2 ≠ Qubit.MAX - 1 :=
  ⟨allocSeq_qubit_full, range_qubit_getLast, by decide⟩

/-- C5 amended: starting from qubit counter 0, performing Qubit::MAX - 1
single alloc calls succeeds on every call, the last of these calls returns
the symbol with index Qubit::MAX - 2, the counter is left at
Qubit::MAX - 1, and the next (the MAX-th) alloc call fails with
AllocOverflow. -/
theorem qubit_exhaustion_amended :
    allocSeq Qubit.MAX (Qubit.MAX - 1) 0
      = some (List.range (Qubit.MAX - 1), Qubit.MAX - 1) ∧
    (List.range (Qubit.MAX - 1)).getLast? = some (Qubit.MAX - 2) ∧
    alloc Qubit.MAX (Qubit.MAX - 1)
      = (Except.error QuantumCircuitError.AllocOverflow, Qubit.MAX - 1) :=
  ⟨allocSeq_qubit_full, range_qubit_getLast,
   alloc_error Qubit.MAX (Qubit.MAX - 1) (by decide)⟩

/-- C6: whenever alloc_n succeeds from counter c, it returns exactly n
symbols with strictly consecutive ascending indices c, c + 1, ...,
c + n - 1, and its effect (symbols produced and final counter) is
identical to n sequential alloc calls from the same state (allocSeq). -/
theorem alloc_n_refines_seq (MAX c n : Nat) (res : List Nat) (c2 : Nat)
    (h : alloc_n MAX c n = (Except.ok res, c2)) :
    res.length = n ∧ (∀ i, i < n → res[i]? = some (c + i)) ∧
    allocSeq MAX n c = some (res, c2) := by
  have hg : c + n < MAX := by
    by_contra hg
    have he := checked_incr_error MAX c n (by omega)
    simp [alloc_n, he] at h
  have ho := checked_incr_ok MAX c n hg
  simp only [alloc_n, ho, Prod.mk.injEq, Except.ok.injEq] at h
  obtain ⟨hres, hc2⟩ := h
  subst hres; subst hc2
  refine ⟨by simp, fun i hi => ?_, allocSeq_ok MAX n c hg⟩
  simp [List.getElem?_map, List.getElem?_range, hi]

/-- Witness for C6: alloc_n with MAX = 10 from counter 2 requesting 3
symbols returns indices 2, 3, 4 with final counter 5, matching three
sequential alloc calls. -/
theorem alloc_n_refines_seq_witness :
    ((List.range 3).map (2 + ·)).length = 3 ∧
    ((List.range 3).map (2 + ·))[1]? = some (2 + 1) ∧
    allocSeq 10 3 2 = some ((List.range 3).map (2 + ·), 2 + 3) :=
  have h := alloc_n_refines_seq 10 2 3 ((List.range 3).map (2 + ·)) (2 + 3) rfl
  ⟨h.1, h.2.1 1 (by decide), h.2.2⟩

/-- C7: for every finite f32 bit pattern b, Parameter::from stores b
unchanged and as_value returns it (Some(x) with the same bits, hence the
same float); for every non-finite pattern (NaN and both infinities),
Parameter::from normalizes the input to 0.0 (bit pattern 0) and stores a
value-Parameter, so as_value returns Some(0.0). -/
theorem ofF32_value_roundtrip (b : Nat) (hb : b < 2 ^ 32) :
    (f32.isFinite b = true → (Parameter.ofF32 b).as_value = some b) ∧
    (f32.isFinite b = false →
      Parameter.ofF32 b = ⟨0⟩ ∧ (Parameter.ofF32 b).as_value = some 0) := by
  constructor
  · intro h
    simp [Parameter.ofF32, h, Parameter.as_value, Parameter.is_value]
  · intro h
    have h0 : Parameter.ofF32 b = ⟨0⟩ := by simp [Parameter.ofF32, h]
    exact ⟨h0, by rw [h0]; decide⟩

/-- Witness for C7: 3.5 (bits 0x40600000) round-trips through as_value,
and NaN (bits 0x7FC00000) is normalized to the value-Parameter 0.0. -/
theorem ofF32_value_roundtrip_witness :
    (Parameter.ofF32 0x40600000).as_value = some 0x40600000 ∧
    (Parameter.ofF32 0x7FC00000 = ⟨0⟩ ∧
      (Parameter.ofF32 0x7FC00000).as_value = some 0) :=
  ⟨(ofF32_value_roundtrip 0x40600000 (by decide)).1 (by decide),
   (ofF32_value_roundtrip 0x7FC00000 (by decide)).2 (by decide)⟩

/-- C8: Parameter equality.  (1) For finite bit patterns x and y, the two
value-Parameters compare by the code's f32 computation
|x - y| < PRECISION (f32 subtraction with round-to-nearest-even, f32 abs,
IEEE f32 ordering against the f32 value of the literal 1e-4).  (2) A
value-Parameter is never equal to a formal-Parameter, in either order.
(3) Two formal-Parameters are equal iff their raw bit patterns are
identical. -/
theorem param_eq_characterization :
    (∀ x y : Nat, f32.isFinite x = true → f32.isFinite y = true →
      Parameter.peq (Parameter.ofF32 x) (Parameter.ofF32 y)
        = f32.lt (f32.abs (f32.sub x y)) Parameter.PRECISION) ∧
    (∀ p q : Parameter, p.is_value = true → q.is_formal = true →
      Parameter.peq p q = false ∧ Parameter.peq q p = false) ∧
    (∀ p q : Parameter, p.is_formal = true → q.is_formal = true →
      (Parameter.peq p q = true ↔ p.bits = q.bits)) := by
  refine ⟨fun x y hx hy => ?_, fun p q hp hq => ?_, fun p q hp hq => ?_⟩
  · simp [Parameter.peq, Parameter.ofF32, hx, hy, Parameter.as_value,
      Parameter.is_value]
  · have hq2 : q.is_value = false := by
      simpa [Parameter.is_formal] using hq
    constructor <;> simp [Parameter.peq, Parameter.as_value, hp, hq2]
  · have hp2 : p.is_value = false := by
      simpa [Parameter.is_formal] using hp
    have hq2 : q.is_value = false := by
      simpa [Parameter.is_formal] using hq
    simp [Parameter.peq, Parameter.as_value, hp2, hq2]

/-- Witness for C8: two finite patterns (1.0 and 1.0 + 2^-20) reduce to the
f32 comparison; the value 0.0 and the formal pattern 0x7F800000 are unequal
both ways; two identical NaN-payload formals are equal iff bits agree. -/
theorem param_eq_characterization_witness :
    Parameter.peq (Parameter.ofF32 0x3F800000) (Parameter.ofF32 0x3F800008)
      = f32.lt (f32.abs (f32.sub 0x3F800000 0x3F800008)) Parameter.PRECISION ∧
    (Parameter.peq ⟨0⟩ ⟨0x7F800000⟩ = false ∧
     Parameter.peq ⟨0x7F800000⟩ ⟨0⟩ = false) ∧
    (Parameter.peq ⟨0x7FC00001⟩ ⟨0x7FC00001⟩ = true ↔
      (0x7FC00001 : Nat) = 0x7FC00001) :=
  ⟨param_eq_characterization.1 0x3F800000 0x3F800008 (by decide) (by decide),
   param_eq_characterization.2.1 ⟨0⟩ ⟨0x7F800000⟩ (by decide) (by decide),
   param_eq_characterization.2.2 ⟨0x7FC00001⟩ ⟨0x7FC00001⟩ (by decide) (by decide)⟩

/-- C9: for every List over a half-open range from s to e with s <= e,
get i returns Some of the symbol with index s + i for i < e - s and None
for i >= e - s, and contains(sym) is true iff s <= sym.index < e; both
lookups are total Option/Bool-returning functions. -/
theorem symlist_get_contains_spec (s e : Nat) (hse : s ≤ e) :
    (∀ i, i < e - s → (SymList.from_range s e).get i = some (s + i)) ∧
    (∀ i, e - s ≤ i → (SymList.from_range s e).get i = none) ∧
    (∀ sym, (SymList.from_range s e).contains sym = true ↔ s ≤ sym ∧ sym < e) := by
  refine ⟨fun i hi => ?_, fun i hi => ?_, fun sym => ?_⟩
  · simp [SymList.get, SymList.len, SymList.from_range, hi, Nat.add_comm]
  · have h2 : ¬ i < e - s := by omega
    simp [SymList.get, SymList.len, SymList.from_range, h2]
  · simp [SymList.contains, SymList.from_range]

/-- Witness for C9: the list over the range from 2 to 5 yields index 3 at
position 1, is absent at position 3, and contains 4. -/
theorem symlist_get_contains_witness :
    (SymList.from_range 2 5).get 1 = some (2 + 1) ∧
    (SymList.from_range 2 5).get 3 = none ∧
    ((SymList.from_range 2 5).contains 4 = true ↔ 2 ≤ 4 ∧ 4 < 5) :=
  have h := symlist_get_contains_spec 2 5 (by decide)
  ⟨h.1 1 (by decide), h.2.1 3 (by decide), h.2.2 4⟩

/-- C10: List::new from two endpoint symbols (provided only for Qubit
endpoints, compared by index) is endpoint-inclusive: it returns None iff
the start index exceeds the end index, and otherwise returns the list over
the half-open range from a to b + 1, whose length is b - a + 1 and which
contains both endpoints; in particular new(a, a) is a one-element list. -/
theorem symlist_new_inclusive (a b : Nat) :
    (SymList.new a b = none ↔ b < a) ∧
    (a ≤ b → SymList.new a b = some (SymList.from_range a (b + 1)) ∧
      (SymList.from_range a (b + 1)).len = b - a + 1 ∧
      (SymList.from_range a (b + 1)).contains a = true ∧
      (SymList.from_range a (b + 1)).contains b = true) := by
  constructor
  · by_cases h : a ≤ b <;> simp [SymList.new, h] <;> omega
  · intro h
    refine ⟨by simp [SymList.new, h], ?_, ?_, ?_⟩
    · simp only [SymList.len, SymList.from_range]
      omega
    · simp [SymList.contains, SymList.from_range]
      omega
    · simp [SymList.contains, SymList.from_range]
      omega

/-- Witness for C10: new(3, 5) is the list over the range from 3 to 6, of
length 3, containing both 3 and 5. -/
theorem symlist_new_inclusive_witness :
    SymList.new 3 5 = some (SymList.from_range 3 (5 + 1)) ∧
    (SymList.from_range 3 (5 + 1)).len = 5 - 3 + 1 ∧
    (SymList.from_range 3 (5 + 1)).contains 3 = true ∧
    (SymList.from_range 3 (5 + 1)).contains 5 = true :=
  (symlist_new_inclusive 3 5).2 (by decide)
